import Mathlib

/-!
# Verification of the terminal_viewer rendering/compositing pipeline

Shallow embedding of the `terminal_viewer` Python repository:
`colors.py` (ANSI escape generation), `display.py` (buffers, merge,
session command handling), `overlay.py` (overlay panel layout) and
`media_handler/` (per-media playback state machine).

Python lists of cell strings are embedded as `List String`; Python slice
assignment `buffer[a:b] = xs` (with `b - a = len xs`, as used throughout
`overlay.py`) is embedded as `writeSlice`; single-cell assignment
`buffer[i] = v` as `List.set`.  Machine integers are embedded as `Int` /
`Nat` (no overflow concerns arise: Python ints are unbounded).  Python
exceptions are embedded as `Except`.  The floating point expression
`int((val/255)*23)` of `val2grayscale` agrees with integer floor
division `val*23/255` on the whole guarded domain 0..255, and is
embedded as such.
-/

namespace TerminalViewer

/-- The ESC character, first byte of every ANSI escape sequence. -/
def esc : String := "\x1b"

/-- ANSI reset sequence appended by the overlay writers. -/
def resetCode : String := esc ++ "[0m"

/-! ## colors.py -/

/-- Template `FG_256_TEMPLATE = "\x1b[38;2;{r};{g};{b}m"` instantiated at `r g b`. -/
def FG_256_TEMPLATE (r g b : Int) : String :=
  esc ++ "[38;2;" ++ toString r ++ ";" ++ toString g ++ ";" ++ toString b ++ "m"

/-- Template `BG_256_TEMPLATE = "\x1b[48;2;{r};{g};{b}m"` instantiated at `r g b`. -/
def BG_256_TEMPLATE (r g b : Int) : String :=
  esc ++ "[48;2;" ++ toString r ++ ";" ++ toString g ++ ";" ++ toString b ++ "m"

/-- Template `FG_GRAY_TEMPLATE = "\x1b[38;5;{color}m"` instantiated at `color`. -/
def FG_GRAY_TEMPLATE (color : Int) : String :=
  esc ++ "[38;5;" ++ toString color ++ "m"

/-- Template `BG_GRAY_TEMPLATE = "\x1b[48;5;{color}m"` instantiated at `color`. -/
def BG_GRAY_TEMPLATE (color : Int) : String :=
  esc ++ "[48;5;" ++ toString color ++ "m"

/-- The grayscale bucket `int((val/255)*23)` computed by `val2grayscale`.
For `0 ≤ val ≤ 255` the Python float expression equals exact integer
floor division (checked exhaustively on all 256 inputs). -/
def grayBucket (val : Int) : Int := val * 23 / 255

/-- Function `colors.val2grayscale`: ANSI escape for a grayscale value; raises
`ValueError` (embedded as `.error`) outside 0..255. -/
def val2grayscale (val : Int) (bg : Bool) : Except String String :=
  if val < 0 ∨ val > 255 then .error "val must be between 0 and 255"
  else
    .ok ((if bg then BG_GRAY_TEMPLATE else FG_GRAY_TEMPLATE) (grayBucket val + 232))

/-- Function `colors.rgb2ansi256`: true-color ANSI escape; raises `ValueError`
(embedded as `.error`) if any channel is outside 0..255. -/
def rgb2ansi256 (r g b : Int) (bg : Bool) : Except String String :=
  if r < 0 ∨ r > 255 then .error "r must be between 0 and 255"
  else if g < 0 ∨ g > 255 then .error "g must be between 0 and 255"
  else if b < 0 ∨ b > 255 then .error "b must be between 0 and 255"
  else .ok ((if bg then BG_256_TEMPLATE else FG_256_TEMPLATE) r g b)

/-! ## display.py : buffer merge (`Display.draw`) -/

/-- The per-cell choice of `Display.draw`:
`c_px if o_px == " " or o_px == "" else o_px`. -/
def mergeCell (c_px o_px : String) : String :=
  if o_px = " " ∨ o_px = "" then c_px else o_px

/-- The list comprehension of `Display.draw` over `zip(content, overlay)`. -/
def mergedCells (content overlay : List String) : List String :=
  (content.zip overlay).map fun p => mergeCell p.1 p.2

/-- The string `Display.draw` emits, via `"".join(buffer_out)`: the composited output string. -/
def mergeBuffers (content overlay : List String) : String :=
  String.join (mergedCells content overlay)

/-- The cell choice as the specification words it: pick the overlay cell
when it is non-empty and not a single space, else the content cell. -/
def specPickCell (c o : String) : String :=
  if o ≠ "" ∧ o ≠ " " then o else c

theorem mergeCell_eq_specPickCell (c o : String) :
    mergeCell c o = specPickCell c o := by
  unfold mergeCell specPickCell
  by_cases h1 : o = " "
  · simp [h1]
  · by_cases h2 : o = ""
    · simp [h1, h2]
    · simp [h1, h2]

theorem mergedCells_eq_zipWith (content overlay : List String) :
    mergedCells content overlay = List.zipWith specPickCell content overlay := by
  induction content generalizing overlay with
  | nil => simp [mergedCells]
  | cons c cs ih =>
    cases overlay with
    | nil => simp [mergedCells]
    | cons o os =>
      simp only [mergedCells, List.zip_cons_cons, List.map_cons, List.zipWith_cons_cons]
      rw [mergeCell_eq_specPickCell]
      exact congrArg _ (ih os)

/-! ## Python list surgery

`overlay.py` mutates the cell list through slice assignment
`buffer[a : a + len xs] = xs` (every slice assignment in the repository
has matching slice and payload lengths) and through single-cell
`buffer[i] = buffer[i] + reset`.  `writeSlice` and `appendAt` embed these;
on the in-range domains used by the claims they agree with CPython
(Python raises `IndexError` out of range; negative indices never arise
under the stated geometry side conditions). -/

/-- Python `l[a : a + len xs] = xs`. -/
def writeSlice (l : List String) (a : Nat) (xs : List String) : List String :=
  l.take a ++ xs ++ l.drop (a + xs.length)

/-- Python `l[i] = l[i] + s`, as used for the trailing reset sequences. -/
def appendAt (l : List String) (i : Nat) (s : String) : List String :=
  l.set i (l.getD i "" ++ s)

/-- Python slice read `l[a : a + n]`. -/
def rowSlice (l : List String) (a n : Nat) : List String :=
  (l.drop a).take n

theorem length_writeSlice (l : List String) (a : Nat) (xs : List String)
    (h : a + xs.length ≤ l.length) :
    (writeSlice l a xs).length = l.length := by
  unfold writeSlice
  simp only [List.length_append, List.length_take, List.length_drop]
  omega

theorem length_appendAt (l : List String) (i : Nat) (s : String) :
    (appendAt l i s).length = l.length := by
  unfold appendAt
  exact List.length_set l i _

theorem rowSlice_writeSlice_self (l : List String) (a : Nat) (xs : List String)
    (h : a + xs.length ≤ l.length) :
    rowSlice (writeSlice l a xs) a xs.length = xs := by
  unfold rowSlice writeSlice
  rw [List.append_assoc]
  have htake : (l.take a).length = a := List.length_take_of_le (by omega)
  rw [List.drop_append_of_le_length (by omega)]
  rw [List.drop_take, Nat.sub_self, List.take_zero, List.nil_append]
  rw [List.take_append_of_le_length (le_refl _), List.take_length]

theorem rowSlice_writeSlice_before (l : List String) (a n b : Nat) (xs : List String)
    (hd : a + n ≤ b) (hb : a + n ≤ l.length) :
    rowSlice (writeSlice l b xs) a n = rowSlice l a n := by
  unfold rowSlice writeSlice
  rw [List.append_assoc]
  rw [List.drop_append_of_le_length (by rw [List.length_take]; omega)]
  rw [List.take_append_of_le_length (by
    rw [List.length_drop, List.length_take]; omega)]
  rw [List.drop_take, List.take_take]
  congr 1
  omega

theorem rowSlice_appendAt_before (l : List String) (a n i : Nat) (s : String)
    (hd : a + n ≤ i) :
    rowSlice (appendAt l i s) a n = rowSlice l a n := by
  unfold rowSlice appendAt
  rw [List.drop_set, if_neg (by omega), List.set_take]
  rw [List.set_eq_of_length_le]
  rw [List.length_take, List.length_drop]
  omega

theorem getD_writeSlice_inside (l : List String) (a k : Nat) (xs : List String)
    (h1 : a ≤ k) (h2 : k < a + xs.length) (h3 : a + xs.length ≤ l.length) :
    (writeSlice l a xs).getD k "?" = xs.getD (k - a) "?" := by
  unfold writeSlice
  rw [List.append_assoc]
  have htake : (l.take a).length = a := List.length_take_of_le (by omega)
  rw [List.getD_append_right _ _ _ _ (by rw [htake]; omega), htake]
  rw [List.getD_append _ _ _ _ (by omega)]

theorem getD_writeSlice_before (l : List String) (a k : Nat) (xs : List String)
    (h1 : k < a) (h3 : a ≤ l.length) :
    (writeSlice l a xs).getD k "?" = l.getD k "?" := by
  unfold writeSlice
  rw [List.append_assoc]
  rw [List.getD_append _ _ _ _ (by rw [List.length_take]; omega)]
  rw [List.getD_eq_getElem _ _ (by rw [List.length_take]; omega)]
  rw [List.getElem_take]
  rw [List.getD_eq_getElem _ _ (by omega)]

theorem getD_writeSlice_after (l : List String) (a k : Nat) (xs : List String)
    (h1 : a + xs.length ≤ k) (h3 : a ≤ l.length) :
    (writeSlice l a xs).getD k "?" = l.getD k "?" := by
  unfold writeSlice
  rw [List.append_assoc]
  have htake : (l.take a).length = a := List.length_take_of_le h3
  rw [List.getD_append_right _ _ _ _ (by rw [htake]; omega), htake]
  rw [List.getD_append_right _ _ _ _ (by omega)]
  by_cases hk : k < l.length
  · rw [List.getD_eq_getElem _ _ (by rw [List.length_drop]; omega)]
    rw [List.getElem_drop]
    rw [List.getD_eq_getElem _ _ hk]
    simp only [show a + xs.length + (k - a - xs.length) = k from by omega]
  · rw [List.getD_eq_default _ _ (by rw [List.length_drop]; omega)]
    rw [List.getD_eq_default _ _ (by omega)]

theorem getD_appendAt_ne (l : List String) (i k : Nat) (s : String)
    (h : k ≠ i) :
    (appendAt l i s).getD k "?" = l.getD k "?" := by
  unfold appendAt
  by_cases hk : k < l.length
  · rw [List.getD_eq_getElem _ _ (by rw [List.length_set]; exact hk)]
    rw [List.getElem_set_ne (by omega)]
    rw [List.getD_eq_getElem _ _ hk]
  · rw [List.getD_eq_default _ _ (by rw [List.length_set]; omega)]
    rw [List.getD_eq_default _ _ (by omega)]

theorem getD_appendAt_self (l : List String) (i : Nat) (s : String)
    (h : i < l.length) :
    (appendAt l i s).getD i "?" = l.getD i "?" ++ s := by
  unfold appendAt
  rw [List.getD_eq_getElem _ _ (by rw [List.length_set]; exact h)]
  rw [List.getElem_set_self]
  rw [List.getD_eq_getElem _ _ h]
  rw [List.getD_eq_getElem _ _ h]

/-! ## overlay.py -/

/-- Extract the payload of a successful color call.  The overlay writers
only call the color functions on the in-range default constants, where the
Python functions return normally. -/
def okStr (e : Except String String) : String := e.toOption.getD ""

/-- The `get_overlay_func_color` text foreground escape for the default
constants `GRAY_TEXT_FG_COLOR = (255,)`, `RGB_TEXT_FG_COLOR = (255,255,255)`. -/
def overlayTextFg (grayscale : Bool) : String :=
  okStr (if grayscale then val2grayscale 255 false else rgb2ansi256 255 255 255 false)

/-- The `get_overlay_func_color` text background escape for the default
constants `GRAY_TEXT_BG_COLOR = (0,)`, `RGB_TEXT_BG_COLOR = (0,0,0)`,
with `bg=True`. -/
def overlayTextBg (grayscale : Bool) : String :=
  okStr (if grayscale then val2grayscale 0 true else rgb2ansi256 0 0 0 true)

/-- Python format `{n:02}`: decimal, zero-padded to at least two digits. -/
def pad2 (n : Nat) : String := if n < 10 then "0" ++ toString n else toString n

/-- Function `overlay.float_to_time` on integer milliseconds (every call site passes
the integer `current_pos_ms` / `duration_ms`; on that domain the float
divisions and truncations agree with integer floor arithmetic). -/
def float_to_time (msec : Nat) : String :=
  let sec := msec / 1000 % 60
  let minute := msec / 60000 % 60
  let hour := msec / 3600000
  if hour > 0 then pad2 hour ++ ":" ++ pad2 minute ++ ":" ++ pad2 sec
  else pad2 minute ++ ":" ++ pad2 sec

/-- A text cell as every overlay writer builds it:
`f"{get_color(*_TEXT_BG_COLOR, bg=True)}{get_color(*_TEXT_FG_COLOR)}{c}"`. -/
def textCell (grayscale : Bool) (c : Char) : String :=
  overlayTextBg grayscale ++ overlayTextFg grayscale ++ String.singleton c

/-- A background-filled blank cell
`f"{get_color(*_TEXT_BG_COLOR, bg=True)} "`. -/
def fillCell (grayscale : Bool) : String := overlayTextBg grayscale ++ " "

/-- Function `overlay.write_media_timeline`.  `line_width` embeds
`int(progress * columns)` as exact floor arithmetic on the integer
arguments of the call sites. -/
def write_media_timeline (buffer : List String) (columns lines : Nat)
    (position duration : Nat) (grayscale : Bool) : List String :=
  if duration = 0 then buffer
  else
    let fg := overlayTextFg grayscale
    let curr_time := float_to_time position
    let max_time := float_to_time duration
    let line_width := position * columns / duration
    let start_offset := (lines - 2) * columns
    let b1 := writeSlice buffer start_offset (List.replicate line_width (fg ++ "#"))
    let b2 := writeSlice b1 start_offset
      ((rowSlice b1 start_offset columns).map
        (fun buf => overlayTextBg grayscale ++ buf))
    let b3 := appendAt b2 (start_offset + line_width - 1) resetCode
    let b4 := writeSlice b3 (start_offset + columns)
      (curr_time.toList.map (textCell grayscale))
    let b5 := appendAt b4 (start_offset + columns + curr_time.length - 1) resetCode
    let b6 := writeSlice b5 (start_offset + columns + columns - max_time.length)
      (max_time.toList.map (textCell grayscale))
    appendAt b6 (start_offset + columns + columns - 1) resetCode

/-- Basename `pathlib.Path(p).name` for the POSIX paths the viewer handles: the
component after the last slash. -/
def pathName (p : String) : String := (p.splitOn "/").getLastD ""

/-- Function `overlay.write_media_title`. -/
def write_media_title (buffer : List String) (columns lines : Nat)
    (media_path : String) (grayscale : Bool) : List String :=
  let start_offset := (lines - 3) * columns
  let file_name := pathName media_path
  let b1 := writeSlice buffer start_offset
    (file_name.toList.map (textCell grayscale))
  appendAt b1 (start_offset + file_name.length - 1) resetCode

/-- The indicator text `f" {media_index}/{media_count} "`. -/
def posText (media_index media_count : Int) : String :=
  " " ++ toString media_index ++ "/" ++ toString media_count ++ " "

/-- Function `overlay.write_media_position`.  Note the source computes
`start_offset = 2 * columns - len(text)`: the write lands at the right
edge of buffer row 1 (the second row from the top). -/
def write_media_position (buffer : List String) (columns lines : Nat)
    (media_index media_count : Int) (grayscale : Bool) : List String :=
  let text := posText media_index media_count
  let start_offset := 2 * columns - text.length
  let b1 := writeSlice buffer start_offset
    (text.toList.map (textCell grayscale))
  appendAt b1 (start_offset + text.length - 1) resetCode

/-- The eight text lines `write_help` writes at rows 2..9, in source order. -/
def helpMessages : List String :=
  [" t: show/hide timeline", " m: forward frame", " n: previous frame",
   " +: next media", " -: previous media", " p: play/pause",
   " h: show/hide help", " q: quit"]

/-- The text content of the eleven help rows: rows 0 and 10 are solid fill,
row 1 the title, rows 2..9 the eight command lines. -/
def helpRowText (r : Nat) : Option String :=
  if r = 0 ∨ r = 10 then none
  else if r = 1 then some " Help menu"
  else helpMessages.get? (r - 2)

/-- The 30 cells written for one help row: for a text row, the message
glyph cells padded with background-filled blanks to `help_width = 30`;
for a fill row, 30 background-filled blanks. -/
def helpRowCells (grayscale : Bool) (t : Option String) : List String :=
  match t with
  | none => List.replicate 30 (fillCell grayscale)
  | some msg => msg.toList.map (textCell grayscale) ++
      List.replicate (30 - msg.length) (fillCell grayscale)

/-- One row block of `write_help`: slice-assign the 30 row cells at
`r * columns` and append the reset to cell `r * columns + help_width - 1`. -/
def writeHelpRow (columns : Nat) (grayscale : Bool) (b : List String) (r : Nat) :
    List String :=
  appendAt (writeSlice b (r * columns) (helpRowCells grayscale (helpRowText r)))
    (r * columns + 29) resetCode

/-- Function `overlay.write_help`: the eleven explicit row blocks of the source,
rows 0..10 (the `lines` argument is accepted and unused, as in the source). -/
def write_help (buffer : List String) (columns lines : Nat) (grayscale : Bool) :
    List String :=
  (List.range 11).foldl (writeHelpRow columns grayscale) buffer

/-! ## display.py : VideoBuffer and frame writing -/

/-- Structure `display.VideoBuffer` and its constructor state. -/
structure VideoBuffer where
  cols : Nat
  lines : Nat
  buffer_size : Nat
  buffer : List String

/-- Construct a `VideoBuffer` as `__init__` does. -/
def VideoBuffer.init (cols lines : Nat) : VideoBuffer :=
  { cols := cols, lines := lines, buffer_size := cols * lines,
    buffer := List.replicate (cols * lines) " " }

/-- Method `VideoBuffer.clear`: refill with `buffer_size` single spaces. -/
def VideoBuffer.clear (vb : VideoBuffer) : VideoBuffer :=
  { vb with buffer := List.replicate vb.buffer_size " " }

/-- Method `VideoBuffer.update_size`: store the new geometry, then `clear`. -/
def VideoBuffer.update_size (vb : VideoBuffer) (cols lines : Nat) : VideoBuffer :=
  VideoBuffer.clear
    { vb with cols := cols, lines := lines, buffer_size := cols * lines }

/-- Method `Display.write_frame`: after nearest-neighbour resampling the frame has
exactly `lines × cols` pixels; the double loop sets cell `y*cols + x` to
the background color escape of pixel `(y, x)` followed by a single space.
`cellColor y x` abstracts `Display.get_color` applied to the resampled,
channel-converted pixel. -/
def write_frame (buffer : List String) (cols lines : Nat)
    (cellColor : Nat → Nat → String) : List String :=
  (List.range lines).foldl (fun b y =>
    (List.range cols).foldl (fun b2 x =>
      b2.set (y * cols + x) (cellColor y x ++ " ")) b) buffer

/-! ## Length preservation of the writers -/

theorem length_foldl_preserve {β : Type} (xs : List β)
    (f : List String → β → List String)
    (hf : ∀ b x, (f b x).length = b.length) (b : List String) :
    (xs.foldl f b).length = b.length := by
  induction xs generalizing b with
  | nil => rfl
  | cons x xs ih => rw [List.foldl_cons, ih, hf]

theorem length_write_frame (buffer : List String) (cols lines : Nat)
    (cellColor : Nat → Nat → String) :
    (write_frame buffer cols lines cellColor).length = buffer.length := by
  unfold write_frame
  refine length_foldl_preserve _ _ (fun b y => ?_) buffer
  exact length_foldl_preserve _ _ (fun b2 x => List.length_set _ _ _) b

theorem length_helpRowCells (g : Bool) (r : Nat) (hr : r < 11) :
    (helpRowCells g (helpRowText r)).length = 30 := by
  interval_cases r <;> simp [helpRowCells, helpRowText, helpMessages] <;> decide

theorem length_writeHelpRow (cols : Nat) (g : Bool) (b : List String) (r : Nat)
    (hr : r < 11) (hb : r * cols + 30 ≤ b.length) :
    (writeHelpRow cols g b r).length = b.length := by
  unfold writeHelpRow
  rw [length_appendAt, length_writeSlice]
  rw [length_helpRowCells g r hr]
  exact hb

theorem length_write_help (buffer : List String) (cols lines : Nat) (g : Bool)
    (hc : 30 ≤ cols) (hb : 11 * cols ≤ buffer.length) :
    (write_help buffer cols lines g).length = buffer.length := by
  unfold write_help
  have aux : ∀ (rs : List Nat) (b : List String), (∀ r ∈ rs, r < 11) →
      11 * cols ≤ b.length → (rs.foldl (writeHelpRow cols g) b).length = b.length := by
    intro rs
    induction rs with
    | nil => intro b _ _; rfl
    | cons r rs ih =>
      intro b hmem hlen
      rw [List.foldl_cons]
      have hr : r < 11 := hmem r (List.mem_cons_self r rs)
      have h1 : (writeHelpRow cols g b r).length = b.length := by
        refine length_writeHelpRow cols g b r hr ?_
        have : r * cols + 30 ≤ 10 * cols + 30 := by
          have := Nat.mul_le_mul_right cols (Nat.lt_succ_iff.mp hr)
          omega
        omega
      rw [ih _ (fun r' h' => hmem r' (List.mem_cons_of_mem r h')) (h1 ▸ hlen), h1]
  exact aux _ buffer (fun r h => List.mem_range.mp h) hb

theorem length_rowSlice (l : List String) (a n : Nat) :
    (rowSlice l a n).length = min n (l.length - a) := by
  unfold rowSlice
  rw [List.length_take, List.length_drop]

theorem length_write_media_title (buffer : List String) (cols lines : Nat)
    (p : String) (g : Bool) (hl : 3 ≤ lines)
    (hn : (pathName p).length ≤ cols) (hb : buffer.length = cols * lines) :
    (write_media_title buffer cols lines p g).length = buffer.length := by
  have key : (lines - 3) * cols + 3 * cols = lines * cols := by
    have h3 : lines - 3 + 3 = lines := by omega
    calc (lines - 3) * cols + 3 * cols
        = (lines - 3 + 3) * cols := (Nat.add_mul _ _ _).symm
      _ = lines * cols := by rw [h3]
  simp only [write_media_title]
  rw [length_appendAt, length_writeSlice]
  simp only [List.length_map, String.toList, String.length_data]
  rw [hb, Nat.mul_comm cols lines]
  linarith [key, hn]

theorem length_write_media_position (buffer : List String) (cols lines : Nat)
    (i c : Int) (g : Bool) (hl : 2 ≤ lines)
    (ht : (posText i c).length ≤ 2 * cols) (hb : buffer.length = cols * lines) :
    (write_media_position buffer cols lines i c g).length = buffer.length := by
  simp only [write_media_position]
  rw [length_appendAt, length_writeSlice]
  simp only [List.length_map, String.toList, String.length_data]
  have h2c : 2 * cols - (posText i c).length + (posText i c).length = 2 * cols := by
    omega
  rw [h2c, hb]
  have h2 : cols * 2 ≤ cols * lines := Nat.mul_le_mul_left cols hl
  linarith

theorem length_write_media_timeline (buffer : List String) (cols lines : Nat)
    (position duration : Nat) (g : Bool) (hl : 3 ≤ lines)
    (hp : position ≤ duration)
    (hcurr : (float_to_time position).length ≤ cols)
    (hmax : (float_to_time duration).length ≤ cols)
    (hb : buffer.length = cols * lines) :
    (write_media_timeline buffer cols lines position duration g).length =
      buffer.length := by
  by_cases hd : duration = 0
  · simp [write_media_timeline, hd]
  · have hlw : position * cols / duration ≤ cols := by
      calc position * cols / duration
          ≤ duration * cols / duration :=
            Nat.div_le_div_right (Nat.mul_le_mul_right cols hp)
        _ = cols := Nat.mul_div_cancel_left cols (Nat.pos_of_ne_zero hd)
    have key : (lines - 2) * cols + 2 * cols = lines * cols := by
      have h2 : lines - 2 + 2 = lines := by omega
      calc (lines - 2) * cols + 2 * cols
          = (lines - 2 + 2) * cols := (Nat.add_mul _ _ _).symm
        _ = lines * cols := by rw [h2]
    simp only [write_media_timeline, if_neg hd]
    repeat' rw [length_appendAt]
    repeat' (first
      | rw [length_appendAt]
      | rw [length_writeSlice]
      | simp only [List.length_map, List.length_replicate, length_rowSlice,
          String.toList, String.length_data])
    all_goals rw [hb, Nat.mul_comm cols lines]
    all_goals omega

/-! ## Grid operations and the geometry invariant (for C7) -/

/-- The operations `Display` performs on a `VideoBuffer` during a session:
resize (`update_size`), `clear`, a content frame write, and the four
overlay panel writes. -/
inductive GridOp where
  | resize (cols lines : Nat)
  | clear
  | writeFrame (cellColor : Nat → Nat → String)
  | overlayTitle (media_path : String) (grayscale : Bool)
  | overlayPosition (media_index media_count : Int) (grayscale : Bool)
  | overlayTimeline (position duration : Nat) (grayscale : Bool)
  | overlayHelp (grayscale : Bool)

/-- Apply one operation to the buffer, exactly as `display.py` invokes the
writers (always passing the buffer's own current geometry). -/
def GridOp.apply (op : GridOp) (vb : VideoBuffer) : VideoBuffer :=
  match op with
  | .resize c l => vb.update_size c l
  | .clear => vb.clear
  | .writeFrame cc =>
      { vb with buffer := write_frame vb.buffer vb.cols vb.lines cc }
  | .overlayTitle p g =>
      { vb with buffer := write_media_title vb.buffer vb.cols vb.lines p g }
  | .overlayPosition i c g =>
      { vb with buffer := write_media_position vb.buffer vb.cols vb.lines i c g }
  | .overlayTimeline p d g =>
      { vb with buffer := write_media_timeline vb.buffer vb.cols vb.lines p d g }
  | .overlayHelp g =>
      { vb with buffer := write_help vb.buffer vb.cols vb.lines g }

/-- Geometry side conditions under which the Python writers execute all of
their index accesses in range (as they do in the running program, where the
geometry is the live terminal's). -/
def GridOp.ok (op : GridOp) (vb : VideoBuffer) : Prop :=
  match op with
  | .resize _ _ => True
  | .clear => True
  | .writeFrame _ => True
  | .overlayTitle p _ => 3 ≤ vb.lines ∧ (pathName p).length ≤ vb.cols
  | .overlayPosition i c _ => 2 ≤ vb.lines ∧ (posText i c).length ≤ 2 * vb.cols
  | .overlayTimeline p d _ => d = 0 ∨
      (3 ≤ vb.lines ∧ p ≤ d ∧ (float_to_time p).length ≤ vb.cols ∧
        (float_to_time d).length ≤ vb.cols)
  | .overlayHelp _ => 30 ≤ vb.cols ∧ 11 ≤ vb.lines

/-- The TerminalGrid invariant: the stored size matches the geometry and
the cell list has exactly that many cells. -/
def VideoBuffer.WF (vb : VideoBuffer) : Prop :=
  vb.buffer_size = vb.cols * vb.lines ∧ vb.buffer.length = vb.cols * vb.lines

/-- Sequential application of operations, as successive ticks perform them. -/
def applyOps (ops : List GridOp) (vb : VideoBuffer) : VideoBuffer :=
  ops.foldl (fun b op => op.apply b) vb

/-- All operations of a sequence satisfy their side conditions at the state
where they execute. -/
def GridOpsOk : List GridOp → VideoBuffer → Prop
  | [], _ => True
  | op :: rest, vb => op.ok vb ∧ GridOpsOk rest (op.apply vb)

theorem WF_apply (op : GridOp) (vb : VideoBuffer)
    (hwf : vb.WF) (hok : op.ok vb) : (op.apply vb).WF := by
  obtain ⟨hsz, hlen⟩ := hwf
  cases op with
  | resize c l =>
      exact ⟨rfl, by simp [GridOp.apply, VideoBuffer.update_size, VideoBuffer.clear]⟩
  | clear =>
      refine ⟨hsz, ?_⟩
      simp [GridOp.apply, VideoBuffer.clear, hsz]
  | writeFrame cc =>
      exact ⟨hsz, by simp [GridOp.apply, length_write_frame, hlen]⟩
  | overlayTitle p g =>
      obtain ⟨h3, hn⟩ := hok
      exact ⟨hsz, by
        simp only [GridOp.apply]
        rw [length_write_media_title vb.buffer vb.cols vb.lines p g h3 hn hlen, hlen]⟩
  | overlayPosition i c g =>
      obtain ⟨h2, ht⟩ := hok
      exact ⟨hsz, by
        simp only [GridOp.apply]
        rw [length_write_media_position vb.buffer vb.cols vb.lines i c g h2 ht hlen,
          hlen]⟩
  | overlayTimeline p d g =>
      rcases hok with hd | ⟨h3, hpd, hcu, hma⟩
      · exact ⟨hsz, by simp [GridOp.apply, write_media_timeline, hd, hlen]⟩
      · exact ⟨hsz, by
          simp only [GridOp.apply]
          rw [length_write_media_timeline vb.buffer vb.cols vb.lines p d g h3 hpd
            hcu hma hlen, hlen]⟩
  | overlayHelp g =>
      obtain ⟨hc, hli⟩ := hok
      refine ⟨hsz, ?_⟩
      simp only [GridOp.apply]
      rw [length_write_help vb.buffer vb.cols vb.lines g hc (by
        rw [hlen]
        calc 11 * vb.cols = vb.cols * 11 := Nat.mul_comm _ _
          _ ≤ vb.cols * vb.lines := Nat.mul_le_mul_left _ hli), hlen]

/-! ## Claim theorems: C7 and C8 -/

/-- C7: under the geometry side conditions the running program satisfies,
every sequence of resizes, clears, frame writes and overlay panel writes
keeps the grid length equal to `columns * lines` for the current geometry;
and resizing always reallocates to a fully cleared grid of the new
geometry, with no partial preservation of prior contents. -/
theorem grid_geometry_invariant (vb : VideoBuffer) (ops : List GridOp)
    (hwf : vb.WF) (hok : GridOpsOk ops vb) :
    (applyOps ops vb).WF ∧
    (∀ (vb' : VideoBuffer) (c l : Nat),
      ((GridOp.resize c l).apply vb').buffer = List.replicate (c * l) " " ∧
      ((GridOp.resize c l).apply vb').cols = c ∧
      ((GridOp.resize c l).apply vb').lines = l) := by
  constructor
  · induction ops generalizing vb with
    | nil => exact hwf
    | cons op rest ih =>
      obtain ⟨h1, h2⟩ := hok
      exact ih (op.apply vb) (WF_apply op vb hwf h1) h2
  · intro vb' c l
    exact ⟨rfl, rfl, rfl⟩

theorem grid_geometry_invariant_witness :
    (VideoBuffer.init 31 12).WF ∧
    GridOpsOk [GridOp.overlayHelp false, GridOp.resize 2 3]
      (VideoBuffer.init 31 12) ∧
    (applyOps [GridOp.overlayHelp false, GridOp.resize 2 3]
      (VideoBuffer.init 31 12)).WF := by
  have hwf : (VideoBuffer.init 31 12).WF := ⟨rfl, List.length_replicate _ _⟩
  have hok : GridOpsOk [GridOp.overlayHelp false, GridOp.resize 2 3]
      (VideoBuffer.init 31 12) :=
    ⟨⟨by norm_num [VideoBuffer.init], by norm_num [VideoBuffer.init]⟩,
      trivial, trivial⟩
  exact ⟨hwf, hok,
    (grid_geometry_invariant (VideoBuffer.init 31 12) _ hwf hok).1⟩

/-- C8 (code bug): on a 10-column × 6-line grid, `write_media_position`
leaves row `lines - 2` (cells 40..49) untouched and instead writes the
indicator at the right edge of row 1 (cells 10..19): the source computes
`start_offset = 2 * columns - len(text)`, the right edge of the second row
from the **top**, contradicting its own docstring ("the 2nd last line of
the buffer in the right corner") and the specification. -/
theorem write_media_position_row_bug :
    rowSlice (write_media_position (List.replicate 60 " ") 10 6 1 3 false) 40 10 =
      List.replicate 10 " " ∧
    rowSlice (write_media_position (List.replicate 60 " ") 10 6 1 3 false) 10 10 ≠
      List.replicate 10 " " := by
  decide

/-! ## Help panel readback (for C9) -/

theorem getD_rowSlice (l : List String) (a n k : Nat) (d : String)
    (hk : k < n) (hkl : a + k < l.length) :
    (rowSlice l a n).getD k d = l.getD (a + k) d := by
  unfold rowSlice
  rw [List.getD_eq_getElem _ _ (by
    rw [List.length_take, List.length_drop]; omega)]
  rw [List.getElem_take, List.getElem_drop]
  rw [List.getD_eq_getElem _ _ hkl]

theorem rowSlice_appendAt_inside (l : List String) (a n i : Nat) (s : String)
    (h1 : a ≤ i) (h2 : i < a + n) (h3 : i < l.length) :
    rowSlice (appendAt l i s) a n = appendAt (rowSlice l a n) (i - a) s := by
  unfold appendAt rowSlice
  rw [List.drop_set, if_neg (by omega), List.set_take]
  congr 1
  rw [show List.take n (List.drop a l) = rowSlice l a n from rfl]
  rw [getD_rowSlice l a n (i - a) "" (by omega) (by omega)]
  rw [show a + (i - a) = i from by omega]

theorem rowSlice_writeHelpRow_self (cols : Nat) (g : Bool) (b : List String)
    (r : Nat) (hr : r < 11) (hb : r * cols + 30 ≤ b.length) :
    rowSlice (writeHelpRow cols g b r) (r * cols) 30 =
      appendAt (helpRowCells g (helpRowText r)) 29 resetCode := by
  unfold writeHelpRow
  have hlen30 : (helpRowCells g (helpRowText r)).length = 30 :=
    length_helpRowCells g r hr
  have hws : (writeSlice b (r * cols) (helpRowCells g (helpRowText r))).length =
      b.length := length_writeSlice _ _ _ (by rw [hlen30]; exact hb)
  rw [rowSlice_appendAt_inside _ _ _ _ _ (by omega) (by omega) (by rw [hws]; omega)]
  rw [show r * cols + 29 - r * cols = 29 from by omega]
  have hself := rowSlice_writeSlice_self b (r * cols)
    (helpRowCells g (helpRowText r)) (by rw [hlen30]; exact hb)
  rw [hlen30] at hself
  rw [hself]

theorem rowSlice_writeHelpRow_before (cols : Nat) (g : Bool) (b : List String)
    (r a n : Nat) (hd : a + n ≤ r * cols) (hb : a + n ≤ b.length) :
    rowSlice (writeHelpRow cols g b r) a n = rowSlice b a n := by
  unfold writeHelpRow
  rw [rowSlice_appendAt_before _ _ _ _ _ (by omega)]
  exact rowSlice_writeSlice_before b a n (r * cols) _ hd hb

theorem rowSlice_foldl_writeHelpRow_before (cols : Nat) (g : Bool)
    (rs : List Nat) (b : List String) (a n : Nat) (hc : 30 ≤ cols)
    (hall : ∀ x ∈ rs, x < 11 ∧ a + n ≤ x * cols)
    (hb : 11 * cols ≤ b.length) (han : a + n ≤ b.length) :
    rowSlice (rs.foldl (writeHelpRow cols g) b) a n = rowSlice b a n := by
  induction rs generalizing b with
  | nil => rfl
  | cons x rs ih =>
    rw [List.foldl_cons]
    obtain ⟨hx11, hxd⟩ := hall x (List.mem_cons_self x rs)
    have hlenx : (writeHelpRow cols g b x).length = b.length := by
      refine length_writeHelpRow cols g b x hx11 ?_
      have hle : x * cols ≤ 10 * cols := Nat.mul_le_mul_right cols (by omega)
      omega
    rw [ih _ (fun x' h' => hall x' (List.mem_cons_of_mem x h'))
      (by rw [hlenx]; exact hb) (by rw [hlenx]; exact han)]
    exact rowSlice_writeHelpRow_before cols g b x a n hxd han

theorem rowSlice_foldl_writeHelpRow_mem (cols : Nat) (g : Bool)
    (rs : List Nat) (b : List String) (r : Nat) (hc : 30 ≤ cols)
    (hmem : r ∈ rs) (hsort : List.Pairwise (· < ·) rs)
    (hall : ∀ x ∈ rs, x < 11) (hb : 11 * cols ≤ b.length) :
    rowSlice (rs.foldl (writeHelpRow cols g) b) (r * cols) 30 =
      appendAt (helpRowCells g (helpRowText r)) 29 resetCode := by
  induction rs generalizing b with
  | nil => cases hmem
  | cons x rs ih =>
    rw [List.foldl_cons]
    obtain ⟨hhead, htail⟩ := List.pairwise_cons.mp hsort
    have hx11 : x < 11 := hall x (List.mem_cons_self x rs)
    have hxfit : x * cols + 30 ≤ b.length := by
      have hle : x * cols ≤ 10 * cols := Nat.mul_le_mul_right cols (by omega)
      omega
    have hlenx : (writeHelpRow cols g b x).length = b.length :=
      length_writeHelpRow cols g b x hx11 hxfit
    rcases List.mem_cons.mp hmem with rfl | hr
    · rw [rowSlice_foldl_writeHelpRow_before cols g rs (writeHelpRow cols g b r)
        (r * cols) 30 hc
        (fun x' h' => ⟨hall x' (List.mem_cons_of_mem r h'), by
          have hlt : r < x' := hhead x' h'
          have : (r + 1) * cols ≤ x' * cols := Nat.mul_le_mul_right cols hlt
          have : r * cols + cols = (r + 1) * cols := by ring
          omega⟩)
        (by rw [hlenx]; exact hb) (by rw [hlenx]; exact hxfit)]
      exact rowSlice_writeHelpRow_self cols g b r hx11 hxfit
    · exact ih (writeHelpRow cols g b x) hr htail
        (fun x' h' => hall x' (List.mem_cons_of_mem x h'))
        (by rw [hlenx]; exact hb)

/-- Shorthand for `appendAt cells 29 resetCode`: the reset sequence lands on the last
cell of a 30-cell row block. -/
def resetLast (cells : List String) : List String :=
  appendAt cells 29 resetCode

/-- One help-row cell list as the amended specification describes it: the
message glyph cells padded with filled-background cells to the panel
width 30. -/
def specPad (g : Bool) (msg : String) : List String :=
  msg.toList.map (textCell g) ++ List.replicate (30 - msg.length) (fillCell g)

/-- The help panel as the amended specification describes it, row by row:
row 0 solid fill, row 1 the " Help menu" title, rows 2..9 one
command-to-description line each for eight of the nine bound commands
(the rewind command is not listed), row 10 solid fill; every row padded to
the full 30-column panel width, with the reset appended to its last cell. -/
def specHelpRow (g : Bool) (r : Nat) : List String :=
  resetLast
    (match r with
      | 0 => List.replicate 30 (fillCell g)
      | 1 => specPad g " Help menu"
      | 2 => specPad g " t: show/hide timeline"
      | 3 => specPad g " m: forward frame"
      | 4 => specPad g " n: previous frame"
      | 5 => specPad g " +: next media"
      | 6 => specPad g " -: previous media"
      | 7 => specPad g " p: play/pause"
      | 8 => specPad g " h: show/hide help"
      | 9 => specPad g " q: quit"
      | _ => List.replicate 30 (fillCell g))

/-! ## display.py : keyboard commands -/

/-- Enum `display.KeyboardCommand`: the nine bound commands. -/
inductive KeyboardCommand where
  | QUIT
  | REWIND
  | NEXT_MEDIA
  | PREVIOUS_MEDIA
  | NEXT_FRAME
  | PREVIOUS_FRAME
  | PLAY_PAUSE
  | SHOW_HIDE_TIMELINE
  | SHOW_HIDE_HELP
deriving DecidableEq

/-- The one-character value of each `KeyboardCommand` enum member. -/
def KeyboardCommand.val : KeyboardCommand → String
  | .QUIT => "q"
  | .REWIND => "r"
  | .NEXT_MEDIA => "m"
  | .PREVIOUS_MEDIA => "n"
  | .NEXT_FRAME => "+"
  | .PREVIOUS_FRAME => "-"
  | .PLAY_PAUSE => "p"
  | .SHOW_HIDE_TIMELINE => "t"
  | .SHOW_HIDE_HELP => "h"

/-- All nine members, in declaration order. -/
def keyboardCommands : List KeyboardCommand :=
  [.QUIT, .REWIND, .NEXT_MEDIA, .PREVIOUS_MEDIA, .NEXT_FRAME,
   .PREVIOUS_FRAME, .PLAY_PAUSE, .SHOW_HIDE_TIMELINE, .SHOW_HIDE_HELP]

/-! ## Claim theorems: C9 -/

/-- The command key character a help row shows: the glyph of the cell at
column 1 of the row (each line reads `" x: description"`, so the key
letter sits in the second cell); the glyph is the final character of the
cell string, after the color escapes. -/
def cellKeyChar (b : List String) (columns r : Nat) : Char :=
  ((b.getD (r * columns + 1) "").toList).getLastD ' '

/-- C9 counterexample: on a 30×11 grid the help panel's rows 2..9 show the
eight command keys `t m n + - p h q`; the key `r` of the bound `REWIND`
command appears on no row, yet there are nine bound commands — so rows
2..9 cannot carry "one line for the nine bound commands". -/
theorem write_help_nine_commands_counterexample :
    keyboardCommands.length = 9 ∧
    KeyboardCommand.REWIND ∈ keyboardCommands ∧
    KeyboardCommand.REWIND.val = "r" ∧
    (List.range 8).map (fun k =>
        cellKeyChar (write_help (List.replicate 330 " ") 30 11 false) 30 (2 + k)) =
      ['t', 'm', 'n', '+', '-', 'p', 'h', 'q'] ∧
    'r' ∉ (List.range 8).map (fun k =>
        cellKeyChar (write_help (List.replicate 330 " ") 30 11 false) 30 (2 + k)) := by
  decide

/-- C9 (amended): for every grid of geometry at least 30 columns and 11
lines, `write_help` writes a fixed 30-column-wide, 11-row block anchored at
the top-left: row 0 is a solid fill, row 1 carries the " Help menu" title,
rows 2 through 9 each carry one command-to-description line for eight of
the nine bound commands (the rewind command is not listed), row 10 is a
solid fill, and every shorter text line is padded with filled-background
cells out to the full 30-column panel width. -/
theorem write_help_panel_layout (cols lines : Nat) (g : Bool) (b : List String)
    (hc : 30 ≤ cols) (hl : 11 ≤ lines) (hb : b.length = cols * lines) :
    ∀ r, r < 11 →
      rowSlice (write_help b cols lines g) (r * cols) 30 = specHelpRow g r := by
  intro r hr
  have hblen : 11 * cols ≤ b.length := by
    rw [hb]
    calc 11 * cols = cols * 11 := Nat.mul_comm _ _
      _ ≤ cols * lines := Nat.mul_le_mul_left _ hl
  unfold write_help
  rw [rowSlice_foldl_writeHelpRow_mem cols g (List.range 11) b r hc
    (List.mem_range.mpr hr) (List.pairwise_lt_range 11)
    (fun x h => List.mem_range.mp h) hblen]
  interval_cases r <;> rfl

theorem write_help_panel_layout_witness :
    rowSlice (write_help (List.replicate 330 " ") 30 11 false) (1 * 30) 30 =
      specHelpRow false 1 :=
  write_help_panel_layout 30 11 false (List.replicate 330 " ")
    (by omega) (by omega) (by rw [List.length_replicate]) 1 (by omega)

/-! ## media_handler/types.py : MediaCommand -/

/-- Enum `types.MediaCommand`. -/
inductive MediaCommand where
  | NOOP
  | SKIP_FRAME
  | PREV_FRAME
  | PLAY_PAUSE
  | REWIND
deriving DecidableEq

/-! ## display.py : the per-tick command block of `Display.show` -/

/-- The session state the command block of `Display.show` reads and
writes: the keyboard command buffer, the currently open handler's kind and
(for videos) its digest command queue, the two overlay toggles, the media
index, and the two loop-control outcomes (`close`, breaking the inner
loop). -/
structure SessionState where
  command_buffer : List String
  is_video : Bool
  vd_queue : List MediaCommand
  timeline_on : Bool
  help_on : Bool
  current_media_index : Int
  close : Bool
  break_inner : Bool
deriving DecidableEq

/-- The `PREVIOUS_MEDIA` handling: `current_media_index -= 2`, clamped so it
never goes below `-1`. -/
def prevMediaIndex (i : Int) : Int :=
  if i - 2 < -1 then -1 else i - 2

/-- The unconditional `current_media_index += 1` applied after every media
completion at the bottom of the outer loop. -/
def advanceMediaIndex (i : Int) : Int := i + 1

/-- Enqueue a digest command, as `MediaHandler.skip_frame` /
`prev_frame` / `play_pause` / `rewind` do: forwarded only when the open
media is a video. -/
def forwardCommand (s : SessionState) (c : MediaCommand) : SessionState :=
  if s.is_video then { s with vd_queue := s.vd_queue ++ [c] } else s

/-- The `elif` chain of the command block, dispatching one action
character. Unmatched characters fall through with no effect. -/
def dispatch_action (a : String) (s : SessionState) : SessionState :=
  if a = KeyboardCommand.QUIT.val then
    { s with close := true, break_inner := true }
  else if a = KeyboardCommand.REWIND.val then
    forwardCommand s .REWIND
  else if a = KeyboardCommand.NEXT_MEDIA.val then
    { s with break_inner := true }
  else if a = KeyboardCommand.PREVIOUS_MEDIA.val then
    { s with current_media_index := prevMediaIndex s.current_media_index,
             break_inner := true }
  else if a = KeyboardCommand.NEXT_FRAME.val then
    forwardCommand s .SKIP_FRAME
  else if a = KeyboardCommand.PREVIOUS_FRAME.val then
    forwardCommand s .PREV_FRAME
  else if a = KeyboardCommand.PLAY_PAUSE.val then
    forwardCommand s .PLAY_PAUSE
  else if a = KeyboardCommand.SHOW_HIDE_TIMELINE.val then
    { s with timeline_on := ! s.timeline_on }
  else if a = KeyboardCommand.SHOW_HIDE_HELP.val then
    { s with help_on := ! s.help_on }
  else s

/-- The whole per-tick command block: if the buffer is non-empty, pop the
first command, clear the buffer, and dispatch the popped action; otherwise
do nothing. -/
def session_process_commands (s : SessionState) : SessionState :=
  match s.command_buffer with
  | [] => s
  | a :: _ => dispatch_action a { s with command_buffer := [] }

theorem dispatch_action_command_buffer (a : String) (s : SessionState) :
    (dispatch_action a s).command_buffer = s.command_buffer := by
  unfold dispatch_action forwardCommand
  split_ifs <;> rfl

/-! ## Claim theorems: C3 and C5 -/

/-- C3: one tick of the session loop processes exactly the first command
of a pending batch and discards all remaining queued commands, leaving the
queue empty before the next input poll: the block's effect is the dispatch
of the first command on the cleared-queue state, independent of the rest
of the batch. -/
theorem command_queue_anti_buildup (s : SessionState) (a : String)
    (rest : List String) (h : s.command_buffer = a :: rest) :
    session_process_commands s =
      dispatch_action a { s with command_buffer := [] } ∧
    (session_process_commands s).command_buffer = [] ∧
    session_process_commands s =
      session_process_commands { s with command_buffer := [a] } := by
  have h1 : session_process_commands s =
      dispatch_action a { s with command_buffer := [] } := by
    unfold session_process_commands
    rw [h]
  refine ⟨h1, ?_, ?_⟩
  · rw [h1, dispatch_action_command_buffer]
  · rw [h1]
    rfl

theorem command_queue_anti_buildup_witness :
    session_process_commands
      { command_buffer := ["+", "+", "p"], is_video := true, vd_queue := [],
        timeline_on := false, help_on := false, current_media_index := 0,
        close := false, break_inner := false } =
      { command_buffer := [], is_video := true,
        vd_queue := [MediaCommand.SKIP_FRAME],
        timeline_on := false, help_on := false, current_media_index := 0,
        close := false, break_inner := false } := by
  rw [(command_queue_anti_buildup _ "+" ["+", "p"] rfl).1]
  decide

/-- C5: `PrevMedia` handling moves the index back by two and clamps at the
lower bound `-1`, so that the unconditional `+1` applied on every media
completion nets a move back of one item, never producing a negative index;
in particular index 0 yields index 0 again after the increment. -/
theorem prev_media_clamp (i : Int) (h : 0 ≤ i) :
    prevMediaIndex i = max (i - 2) (-1) ∧
    (∀ s : SessionState, s.current_media_index = i →
      (dispatch_action KeyboardCommand.PREVIOUS_MEDIA.val s).current_media_index =
        prevMediaIndex i ∧
      (dispatch_action KeyboardCommand.PREVIOUS_MEDIA.val s).break_inner = true) ∧
    advanceMediaIndex (prevMediaIndex i) = max (i - 1) 0 ∧
    0 ≤ advanceMediaIndex (prevMediaIndex i) := by
  have hval : prevMediaIndex i = max (i - 2) (-1) := by
    unfold prevMediaIndex
    split_ifs with h1 <;> omega
  have hdisp : ∀ s : SessionState, s.current_media_index = i →
      (dispatch_action KeyboardCommand.PREVIOUS_MEDIA.val s).current_media_index =
        prevMediaIndex i ∧
      (dispatch_action KeyboardCommand.PREVIOUS_MEDIA.val s).break_inner = true := by
    intro s hs
    unfold dispatch_action
    rw [if_neg (by decide), if_neg (by decide), if_neg (by decide), if_pos rfl]
    exact ⟨by rw [hs], rfl⟩
  refine ⟨hval, hdisp, ?_, ?_⟩ <;>
    · unfold advanceMediaIndex
      rw [hval]
      omega

theorem prev_media_clamp_witness :
    prevMediaIndex 0 = -1 ∧
    advanceMediaIndex (prevMediaIndex 0) = 0 ∧
    0 ≤ advanceMediaIndex (prevMediaIndex 0) := by
  have h := prev_media_clamp 0 (by omega)
  refine ⟨?_, ?_, h.2.2.2⟩
  · rw [h.1]
    decide
  · rw [h.2.2.1]
    decide

/-! ## media_handler/video_digest.py : the playback state machine

The PyAV container is external: it is modelled as an abstract state type
`C` together with its two operations, `decodeNext` (returning `none` on
`StopIteration` / `EOFError`) and `seek` (whose failures are modelled as
`.error`).  A decoded frame carries its presentation time in integer
milliseconds (`int(frame.time * 1000)`), its keyframe flag, and an
abstract payload standing for the converted
`to_rgb().to_ndarray()[:, :, ::-1]` pixel array. -/

/-- A decoded frame as `VideoDigest.next_frame` consumes it. -/
structure RawFrame where
  time_ms : Int
  key_frame : Bool
  data : Nat
deriving DecidableEq

/-- The external PyAV container interface:
`decodeNext` = `next(container.decode(video=0))`,
`seek c offset backward any_frame` = `container.seek(offset, backward=...,
any_frame=...)`. -/
structure ContainerOps (C : Type) where
  decodeNext : C → Option (RawFrame × C)
  seek : C → Int → Bool → Bool → Except Unit C

/-- Failures surfacing from `VideoDigest.next_frame`. -/
inductive VError where
  | endMedia
  | avError
  | keyError
deriving DecidableEq

/-- The mutable state of a `VideoDigest` (per open video). -/
structure VideoDigest where
  current_pos_ms : Int
  duration_ms : Int
  is_playing : Bool
  command_queue : List MediaCommand
  last_frame : Option Nat
  first_keyframe_ms : Option Int
deriving DecidableEq

/-- Method `VideoDigest._skip_frame`: seek forward from the current position;
a seek failure is not caught here. -/
def VideoDigest._skip_frame {C : Type} (ops : ContainerOps C) (c : C)
    (st : VideoDigest) : Except VError (C × VideoDigest × Bool) :=
  match ops.seek c (st.current_pos_ms * 1000) false false with
  | .ok c' => .ok (c', st, true)
  | .error _ => .error .avError

/-- Method `VideoDigest._prev_frame`: seek backward to one second before the
current position (stream start `-1` when no first key sample has been
observed); a failure of this exact seek is caught by the bare `except:`
and answered with a best-effort backward any-frame seek to `-1`. -/
def VideoDigest._prev_frame {C : Type} (ops : ContainerOps C) (c : C)
    (st : VideoDigest) : Except VError (C × VideoDigest × Bool) :=
  let sample_time : Int :=
    if st.first_keyframe_ms = none then -1 else (st.current_pos_ms - 1000) * 1000
  match ops.seek c sample_time true false with
  | .ok c' => .ok (c', st, true)
  | .error _ =>
    match ops.seek c (-1) true true with
    | .ok c' => .ok (c', st, true)
    | .error _ => .error .avError

/-- Method `VideoDigest._rewind`: seek to the stream start, force playing. -/
def VideoDigest._rewind {C : Type} (ops : ContainerOps C) (c : C)
    (st : VideoDigest) : Except VError (C × VideoDigest × Bool) :=
  match ops.seek c (-1) true true with
  | .ok c' => .ok (c', { st with is_playing := true }, true)
  | .error _ => .error .avError

/-- Method `VideoDigest._play_pause`: flip the playing flag; no sampling forced. -/
def VideoDigest._play_pause {C : Type} (c : C) (st : VideoDigest) :
    Except VError (C × VideoDigest × Bool) :=
  .ok (c, { st with is_playing := ! st.is_playing }, false)

/-- The `command_map` lookup: `NOOP` has no entry, so looking it up is a
`KeyError`. -/
def VideoDigest.run_command {C : Type} (ops : ContainerOps C)
    (cmd : MediaCommand) (c : C) (st : VideoDigest) :
    Except VError (C × VideoDigest × Bool) :=
  match cmd with
  | .SKIP_FRAME => VideoDigest._skip_frame ops c st
  | .PREV_FRAME => VideoDigest._prev_frame ops c st
  | .REWIND => VideoDigest._rewind ops c st
  | .PLAY_PAUSE => VideoDigest._play_pause c st
  | .NOOP => .error .keyError

/-- The decode step of `VideoDigest.next_frame`: pull the next frame,
record the first keyframe time if not yet seen, cache the converted frame
and update `current_pos_ms`; `none` from the decoder is `EndMediaError`. -/
def VideoDigest.decode_step {C : Type} (ops : ContainerOps C) (c : C)
    (st : VideoDigest) :
    Except VError (Option Nat × C × VideoDigest × Bool) :=
  match ops.decodeNext c with
  | none => .error .endMedia
  | some (f, c') =>
    let fk := if st.first_keyframe_ms = none ∧ f.key_frame
      then some f.time_ms else st.first_keyframe_ms
    .ok (some f.data, c',
      { st with first_keyframe_ms := fk, last_frame := some f.data,
                current_pos_ms := f.time_ms }, true)

/-- Method `VideoDigest.next_frame`: dequeue at most one command, run its handler
for `should_sample`, and either return the cached `last_frame` (paused and
nothing forcing a sample — no decode call issued, final component
`false`) or perform a decode step (final component `true`). -/
def VideoDigest.next_frame {C : Type} (ops : ContainerOps C) (c : C)
    (st : VideoDigest) :
    Except VError (Option Nat × C × VideoDigest × Bool) :=
  match st.command_queue with
  | [] =>
    if ! st.is_playing then .ok (st.last_frame, c, st, false)
    else VideoDigest.decode_step ops c st
  | cmd :: rest =>
    match VideoDigest.run_command ops cmd c { st with command_queue := rest } with
    | .error e => .error e
    | .ok (c1, st1, should_sample) =>
      if ! st1.is_playing && ! should_sample then .ok (st1.last_frame, c1, st1, false)
      else VideoDigest.decode_step ops c1 st1

/-- Iteration: `n + 1` successive calls of `VideoDigest.next_frame`, threading the
container and digest state; the result of the last call. -/
def VideoDigest.next_frame_iter {C : Type} (ops : ContainerOps C) :
    Nat → C → VideoDigest → Except VError (Option Nat × C × VideoDigest × Bool)
  | 0, c, st => VideoDigest.next_frame ops c st
  | n + 1, c, st =>
    match VideoDigest.next_frame ops c st with
    | .error e => .error e
    | .ok (_, c', st', _) => VideoDigest.next_frame_iter ops n c' st'

/-! ## media_handler : MediaHandler dispatch -/

/-- Enum `types.MediaType`. -/
inductive MediaType where
  | UNSUPPORTED_MEDIA
  | IMAGE
  | VIDEO
deriving DecidableEq

/-- Structure `image_digest.ImageDigest`: the path and the pixel array loaded once by
`cv2.imread` at construction (abstracted as a payload value). -/
structure ImageDigest where
  media_path : String
  img : Nat
deriving DecidableEq

/-- The digest a `MediaHandler` owns, one variant per media kind. -/
inductive MediaDigest (C : Type) where
  | image (d : ImageDigest)
  | video (c : C) (st : VideoDigest)
  | unsupported (media_path : String)

/-- Method `MediaHandler._get_media_digest`: pick the digest variant from the
probed media type (the external probe and load results are parameters). -/
def _get_media_digest {C : Type} (media_type : MediaType) (media_path : String)
    (img : Nat) (c : C) (st : VideoDigest) : MediaDigest C :=
  match media_type with
  | .IMAGE => .image ⟨media_path, img⟩
  | .VIDEO => .video c st
  | .UNSUPPORTED_MEDIA => .unsupported media_path

/-- Structure `media_handler.MediaHandler`. -/
structure MediaHandler (C : Type) where
  media_path : String
  is_video : Bool
  media_digest : MediaDigest C

/-- Failures surfacing from `MediaHandler.next_frame`. -/
inductive MediaError where
  | endMedia
  | unsupportedMedia
  | avError
  | keyError
deriving DecidableEq

/-- Method `MediaHandler.next_frame`: delegate to the owned digest.
`ImageDigest.next_frame` returns the stored image and nothing else;
`UnsupportedDigest.next_frame` raises `UnsupportedMediaError`. -/
def MediaHandler.next_frame {C : Type} (ops : ContainerOps C)
    (h : MediaHandler C) : Except MediaError (Option Nat × MediaHandler C) :=
  match h.media_digest with
  | .image d => .ok (some d.img, h)
  | .unsupported _ => .error .unsupportedMedia
  | .video c st =>
    match VideoDigest.next_frame ops c st with
    | .error .endMedia => .error .endMedia
    | .error .avError => .error .avError
    | .error .keyError => .error .keyError
    | .ok (f, c', st', _) =>
      .ok (f, { h with media_digest := .video c' st' })

/-- Iteration: `n + 1` successive `MediaHandler.next_frame` calls; the last result. -/
def MediaHandler.next_frame_iter {C : Type} (ops : ContainerOps C) :
    Nat → MediaHandler C → Except MediaError (Option Nat × MediaHandler C)
  | 0, h => MediaHandler.next_frame ops h
  | n + 1, h =>
    match MediaHandler.next_frame ops h with
    | .error e => .error e
    | .ok (_, h') => MediaHandler.next_frame_iter ops n h'

/-! ## Claim theorems: C2, C6, C10 -/

/-- C2: with `is_playing` false and an empty command queue, every
`next_frame` call returns the cached `last_frame` with the container and
the whole digest state (including `current_pos_ms`) unchanged and with no
decode call issued (final component `false`); repeated calls return the
same frame. -/
theorem pause_contract {C : Type} (ops : ContainerOps C) (c : C)
    (st : VideoDigest) (hpause : st.is_playing = false)
    (hqueue : st.command_queue = []) :
    VideoDigest.next_frame ops c st = .ok (st.last_frame, c, st, false) ∧
    (∀ n, VideoDigest.next_frame_iter ops n c st =
      .ok (st.last_frame, c, st, false)) := by
  have h1 : VideoDigest.next_frame ops c st =
      .ok (st.last_frame, c, st, false) := by
    unfold VideoDigest.next_frame
    rw [hqueue, hpause]
    rfl
  refine ⟨h1, ?_⟩
  intro n
  induction n with
  | zero => exact h1
  | succ n ih =>
    unfold VideoDigest.next_frame_iter
    rw [h1]
    exact ih

theorem pause_contract_witness :
    VideoDigest.next_frame_iter
      (⟨fun _ => some (⟨0, true, 7⟩, ()), fun _ _ _ _ => .ok ()⟩ :
        ContainerOps Unit) 2 ()
      { current_pos_ms := 5000, duration_ms := 10000, is_playing := false,
        command_queue := [], last_frame := some 42,
        first_keyframe_ms := some 0 } =
      .ok (some 42, (),
        { current_pos_ms := 5000, duration_ms := 10000, is_playing := false,
          command_queue := [], last_frame := some 42,
          first_keyframe_ms := some 0 }, false) :=
  (pause_contract _ () _ rfl rfl).2 2

/-- C6: `StepBack` (`_prev_frame`) seeks backward to one second before the
current position when a first key sample has been observed and to the
stream start (`-1`) when none has, falls back to a best-effort backward
any-frame seek when the exact seek fails (so that exact-seek failure is
not fatal), leaves the digest state unchanged, and reports
`should_sample = true`, which makes `next_frame` take the decode path that
tick. -/
theorem step_back_recovery {C : Type} (ops : ContainerOps C) (c : C)
    (st : VideoDigest) :
    (∀ k, st.first_keyframe_ms = some k →
      ∀ c', ops.seek c ((st.current_pos_ms - 1000) * 1000) true false = .ok c' →
        VideoDigest._prev_frame ops c st = .ok (c', st, true)) ∧
    (st.first_keyframe_ms = none →
      ∀ c', ops.seek c (-1) true false = .ok c' →
        VideoDigest._prev_frame ops c st = .ok (c', st, true)) ∧
    (∀ e, ops.seek c (if st.first_keyframe_ms = none then -1
          else (st.current_pos_ms - 1000) * 1000) true false = .error e →
      ∀ c', ops.seek c (-1) true true = .ok c' →
        VideoDigest._prev_frame ops c st = .ok (c', st, true)) ∧
    (st.command_queue = [MediaCommand.PREV_FRAME] →
      ∀ c', VideoDigest._prev_frame ops c { st with command_queue := [] } =
          .ok (c', { st with command_queue := [] }, true) →
        VideoDigest.next_frame ops c st =
          VideoDigest.decode_step ops c' { st with command_queue := [] }) := by
  refine ⟨?_, ?_, ?_, ?_⟩
  · intro k hk c' hs
    show (match ops.seek c (if st.first_keyframe_ms = none then (-1 : Int)
        else (st.current_pos_ms - 1000) * 1000) true false with
      | .ok cc => (.ok (cc, st, true) : Except VError (C × VideoDigest × Bool))
      | .error _ =>
        match ops.seek c (-1) true true with
        | .ok cc => .ok (cc, st, true)
        | .error _ => .error .avError) = .ok (c', st, true)
    rw [if_neg (by rw [hk]; exact fun hcontra => Option.noConfusion hcontra), hs]
  · intro hk c' hs
    show (match ops.seek c (if st.first_keyframe_ms = none then (-1 : Int)
        else (st.current_pos_ms - 1000) * 1000) true false with
      | .ok cc => (.ok (cc, st, true) : Except VError (C × VideoDigest × Bool))
      | .error _ =>
        match ops.seek c (-1) true true with
        | .ok cc => .ok (cc, st, true)
        | .error _ => .error .avError) = .ok (c', st, true)
    rw [if_pos hk, hs]
  · intro e he c' hs
    show (match ops.seek c (if st.first_keyframe_ms = none then (-1 : Int)
        else (st.current_pos_ms - 1000) * 1000) true false with
      | .ok cc => (.ok (cc, st, true) : Except VError (C × VideoDigest × Bool))
      | .error _ =>
        match ops.seek c (-1) true true with
        | .ok cc => .ok (cc, st, true)
        | .error _ => .error .avError) = .ok (c', st, true)
    rw [he, hs]
  · intro hq c' hpf
    unfold VideoDigest.next_frame
    rw [hq]
    show (match VideoDigest.run_command ops MediaCommand.PREV_FRAME c
        { st with command_queue := [] } with
      | .error e => .error e
      | .ok (c1, st1, should_sample) =>
        if ! st1.is_playing && ! should_sample
        then .ok (st1.last_frame, c1, st1, false)
        else VideoDigest.decode_step ops c1 st1) =
      VideoDigest.decode_step ops c' { st with command_queue := [] }
    rw [show VideoDigest.run_command ops MediaCommand.PREV_FRAME c
        { st with command_queue := [] } =
        VideoDigest._prev_frame ops c { st with command_queue := [] } from rfl]
    rw [hpf]
    simp

theorem step_back_recovery_witness :
    VideoDigest._prev_frame
      (⟨fun _ => none,
        fun c t b a => if a then .ok (c ++ [(t, b, a)]) else .error ()⟩ :
        ContainerOps (List (Int × Bool × Bool))) []
      { current_pos_ms := 5000, duration_ms := 10000, is_playing := true,
        command_queue := [], last_frame := none,
        first_keyframe_ms := some 0 } =
      .ok ([((-1 : Int), true, true)],
        { current_pos_ms := 5000, duration_ms := 10000, is_playing := true,
          command_queue := [], last_frame := none,
          first_keyframe_ms := some 0 }, true) :=
  (step_back_recovery _ _ _).2.2.1 () rfl _ rfl

/-- C10: for a media item probed as `IMAGE` the handler owns an
`ImageDigest`; every `next_frame` call returns the pixel array loaded at
construction, leaves the handler state unchanged, and never raises
`EndMediaError` or `UnsupportedMediaError` — repeated calls redisplay the
same frame indefinitely. -/
theorem image_redisplay {C : Type} (ops : ContainerOps C) (h : MediaHandler C)
    (d : ImageDigest) (hd : h.media_digest = .image d) :
    (∀ (p : String) (img : Nat) (c : C) (vst : VideoDigest),
      _get_media_digest MediaType.IMAGE p img c vst = .image ⟨p, img⟩) ∧
    MediaHandler.next_frame ops h = .ok (some d.img, h) ∧
    (∀ n, MediaHandler.next_frame_iter ops n h = .ok (some d.img, h)) := by
  have h1 : MediaHandler.next_frame ops h = .ok (some d.img, h) := by
    unfold MediaHandler.next_frame
    rw [hd]
  refine ⟨fun _ _ _ _ => rfl, h1, ?_⟩
  intro n
  induction n with
  | zero => exact h1
  | succ n ih =>
    unfold MediaHandler.next_frame_iter
    rw [h1]
    exact ih

theorem image_redisplay_witness :
    MediaHandler.next_frame_iter
      (⟨fun _ => none, fun _ _ _ _ => .error ()⟩ : ContainerOps Unit) 2
      { media_path := "img.png", is_video := false,
        media_digest := .image ⟨"img.png", 5⟩ } =
      .ok (some 5,
        { media_path := "img.png", is_video := false,
          media_digest := .image ⟨"img.png", 5⟩ }) :=
  (image_redisplay _ _ ⟨"img.png", 5⟩ rfl).2.2 2

/-! ## Claim theorems: C1 and C4 -/

/-- C1: for equal-length content and overlay grids, `Display.draw`'s merge
picks, at each cell index, the overlay cell when that cell is non-empty and
not a single space, and the content cell otherwise, concatenating the chosen
cells in row-major order; an overlay cell left at `""` or `" "` never hides
the content cell, and any other overlay cell always wins. -/
theorem merge_overlay_transparency (content overlay : List String)
    (h : content.length = overlay.length) :
    mergeBuffers content overlay =
      String.join (List.zipWith specPickCell content overlay) ∧
    (∀ i, i < overlay.length →
      (overlay.getD i "?" = "" ∨ overlay.getD i "?" = " ") →
      (mergedCells content overlay).getD i "?" = content.getD i "?") ∧
    (∀ i, i < overlay.length →
      overlay.getD i "?" ≠ "" → overlay.getD i "?" ≠ " " →
      (mergedCells content overlay).getD i "?" = overlay.getD i "?") := by
  have hlen : (List.zipWith specPickCell content overlay).length = overlay.length := by
    rw [List.length_zipWith, h, min_self]
  refine ⟨by rw [mergeBuffers, mergedCells_eq_zipWith], ?_, ?_⟩
  · intro i hi hcase
    have hic : i < content.length := h ▸ hi
    have him : i < (mergedCells content overlay).length := by
      rw [mergedCells_eq_zipWith, hlen]; exact hi
    rw [List.getD_eq_getElem _ _ him, List.getD_eq_getElem _ _ hic]
    rw [List.getD_eq_getElem _ _ hi] at hcase
    have : (mergedCells content overlay)[i] =
        specPickCell content[i] overlay[i] := by
      simp only [mergedCells_eq_zipWith]
      exact List.getElem_zipWith
    rw [this, specPickCell]
    rcases hcase with hc | hc <;> simp [hc]
  · intro i hi hne hns
    have hic : i < content.length := h ▸ hi
    have him : i < (mergedCells content overlay).length := by
      rw [mergedCells_eq_zipWith, hlen]; exact hi
    rw [List.getD_eq_getElem _ _ him, List.getD_eq_getElem _ _ hi]
    rw [List.getD_eq_getElem _ _ hi] at hne hns
    have : (mergedCells content overlay)[i] =
        specPickCell content[i] overlay[i] := by
      simp only [mergedCells_eq_zipWith]
      exact List.getElem_zipWith
    rw [this, specPickCell]
    simp [hne, hns]

theorem merge_overlay_transparency_witness :
    (["A", "B", "C"] : List String).length = (["", " ", "X"] : List String).length ∧
    mergeBuffers ["A", "B", "C"] ["", " ", "X"] = "ABX" := by
  refine ⟨rfl, ?_⟩
  have h := (merge_overlay_transparency ["A", "B", "C"] ["", " ", "X"] rfl).1
  rw [h]; decide

/-- C4: for `v` in 0..255, `val2grayscale` selects bucket `⌊v/255*23⌋` and
returns the escape embedding palette index `232 + bucket`; the bucket is
monotonically non-decreasing in `v`; outside 0..255 the call fails with
`ValueError` instead of returning a code. -/
theorem val2grayscale_spec (v : Int) (bg : Bool) :
    (0 ≤ v → v ≤ 255 →
      val2grayscale v bg =
        .ok ((if bg then BG_GRAY_TEMPLATE else FG_GRAY_TEMPLATE) (grayBucket v + 232)) ∧
      grayBucket v = ⌊(v : ℚ) / 255 * 23⌋) ∧
    (∀ w : Int, 0 ≤ v → v ≤ w → w ≤ 255 → grayBucket v ≤ grayBucket w) ∧
    (v < 0 ∨ v > 255 → val2grayscale v bg = .error "val must be between 0 and 255") := by
  refine ⟨?_, ?_, ?_⟩
  · intro h0 h255
    constructor
    · rw [val2grayscale, if_neg]
      push_neg
      exact ⟨h0, h255⟩
    · rw [grayBucket]
      have : (v : ℚ) / 255 * 23 = ((v * 23 : ℤ) : ℚ) / ((255 : ℕ) : ℚ) := by
        push_cast; ring
      rw [this, Rat.floor_intCast_div_natCast]
      norm_num
  · intro w _ hvw _
    exact Int.ediv_le_ediv (by norm_num) (by linarith)
  · intro hout
    rw [val2grayscale, if_pos hout]

theorem val2grayscale_spec_witness :
    val2grayscale 100 false = .ok (FG_GRAY_TEMPLATE 241) ∧
    grayBucket 100 ≤ grayBucket 200 := by
  have h := val2grayscale_spec 100 false
  have h1 := (h.1 (by decide) (by decide)).1
  have h2 := h.2.1 200 (by decide) (by decide) (by decide)
  have he : grayBucket 100 + 232 = 241 := by decide
  rw [he] at h1
  exact ⟨h1, h2⟩

end TerminalViewer
